import Mathlib

/-!
Verification of the Snake game implementation (src/snake.py, src/food.py,
src/game.py, src/game_stats.py) against its natural-language specification.

Grid positions are pairs of integers.  Python `random.randint(0, n-1)` is
modelled by an arbitrary integer stream reduced modulo `n` (every in-range
draw sequence is realizable this way).  Wall-clock timestamps, floating-point
ratio fields and file persistence are not modelled; none of the verified
claims depends on them.
-/

/-- A grid position, `(x, y)` in grid units (snake.py, food.py use int pairs). -/
abbrev Pos := Int × Int

/-- `Direction` enum from snake.py: each constructor carries a unit delta. -/
inductive Direction where
  | up
  | down
  | left
  | right
deriving DecidableEq, Repr

/-- The `(dx, dy)` value of each `Direction` member (snake.py lines 5-9). -/
def Direction.value : Direction → Pos
  | .up => (0, -1)
  | .down => (0, 1)
  | .left => (-1, 0)
  | .right => (1, 0)

/-- The `opposite_directions` mapping from `Snake.change_direction`. -/
def Direction.opposite : Direction → Direction
  | .up => .down
  | .down => .up
  | .left => .right
  | .right => .left

/-- State of `Snake` (snake.py).  `cell_size` is pixel-only (used by `draw`)
and is omitted; `body` head is element 0 as in the Python list. -/
structure Snake where
  body : List Pos
  direction : Direction
  grow_flag : Bool
  total_moves : Nat
  direction_changes : Nat
deriving DecidableEq, Repr

/-- `Snake.__init__(start_x, start_y, cell_size)`: one segment, facing right,
counters zero. -/
def Snake.init (start_x start_y : Int) : Snake :=
  { body := [(start_x, start_y)]
    direction := .right
    grow_flag := false
    total_moves := 0
    direction_changes := 0 }

/-- `Snake.move`: insert `head + direction.value` at the front, pop the tail
unless `grow_flag` is set (then clear the flag), increment `total_moves`.
The `[]` branch is unreachable: Python `body[0]` would raise there, and the
body of a constructed snake is never empty. -/
def Snake.move (s : Snake) : Snake :=
  match s.body with
  | [] => s
  | (head_x, head_y) :: _ =>
    let d := s.direction.value
    let new_head : Pos := (head_x + d.1, head_y + d.2)
    let inserted : List Pos := new_head :: s.body
    if s.grow_flag then
      { s with body := inserted, grow_flag := false, total_moves := s.total_moves + 1 }
    else
      { s with body := inserted.dropLast, total_moves := s.total_moves + 1 }

/-- `Snake.change_direction(new_direction)`: refuse the 180-degree reversal
(return `false`, no state change); otherwise set the direction, bumping
`direction_changes` only when the direction actually differs, and return
`true`.  Returns the Python bool together with the updated state. -/
def Snake.change_direction (s : Snake) (new_direction : Direction) : Bool × Snake :=
  if new_direction = s.direction.opposite then
    (false, s)
  else if new_direction = s.direction then
    (true, { s with direction := new_direction })
  else
    (true, { s with direction := new_direction,
                    direction_changes := s.direction_changes + 1 })

/-- `Snake.grow`: mark the snake to grow on the next move. -/
def Snake.grow (s : Snake) : Snake :=
  { s with grow_flag := true }

/-- `Snake.check_wall_collision(width, height)`: head outside
`[0, width) × [0, height)`.  The `[]` branch is unreachable (Python raises). -/
def Snake.check_wall_collision (s : Snake) (width height : Int) : Bool :=
  match s.body with
  | [] => false
  | (head_x, head_y) :: _ =>
    decide (head_x < 0) || decide (head_x ≥ width) ||
    decide (head_y < 0) || decide (head_y ≥ height)

/-- `Snake.check_self_collision`: head occurs in `body[1:]`. -/
def Snake.check_self_collision (s : Snake) : Bool :=
  match s.body with
  | [] => false
  | head :: tail => decide (head ∈ tail)

/-- `Snake.get_head_position`: `body[0]`.  The default is unreachable for
constructed snakes (Python would raise on an empty list). -/
def Snake.get_head_position (s : Snake) : Pos :=
  s.body.headD (0, 0)

/-- `Snake.get_length`: `len(body)`. -/
def Snake.get_length (s : Snake) : Nat :=
  s.body.length

/-- No direction has a zero delta, so a move always displaces the head. -/
theorem Direction.value_ne_zero (d : Direction) : d.value ≠ ((0 : Int), (0 : Int)) := by
  cases d <;> simp [Direction.value]

/-- C2: `move()` puts `head + delta` at the front; without the growth flag the
tail is dropped and the length is unchanged, with it the flag is cleared and
the length grows by one; `total_moves` always increments.  Hence `grow()`
then one `move()` adds exactly one segment, and a further `move()` without
another `grow()` leaves the length unchanged. -/
theorem snake_move_spec (s : Snake) (hx hy : Int) (rest : List Pos)
    (hb : s.body = (hx, hy) :: rest) :
    (s.grow_flag = false →
        s.move.body = (hx + s.direction.value.1, hy + s.direction.value.2) :: s.body.dropLast
          ∧ s.move.get_length = s.get_length)
    ∧ (s.grow_flag = true →
        s.move.body = (hx + s.direction.value.1, hy + s.direction.value.2) :: s.body
          ∧ s.move.get_length = s.get_length + 1)
    ∧ s.move.grow_flag = false
    ∧ s.move.total_moves = s.total_moves + 1
    ∧ s.grow.move.get_length = s.get_length + 1
    ∧ s.grow.move.move.get_length = s.get_length + 1 := by
  cases s with
  | mk body dir flag tm dc =>
    subst hb
    cases flag <;>
      simp [Snake.move, Snake.grow, Snake.get_length, List.dropLast]

/-- Witness for `snake_move_spec` at a concrete snake. -/
theorem snake_move_spec_witness :
    ((Snake.init 3 4).grow.move.get_length = (Snake.init 3 4).get_length + 1) := by
  have h := snake_move_spec (Snake.init 3 4) 3 4 [] rfl
  exact h.2.2.2.2.1

/-- C3: `change_direction(d)` returns `false` and changes nothing when `d` is
the opposite of the current direction; otherwise it returns `true`, sets the
direction to `d`, and bumps `direction_changes` exactly when `d` differs from
the current direction. -/
theorem change_direction_spec (s : Snake) (d : Direction) :
    (d = s.direction.opposite → s.change_direction d = (false, s))
    ∧ (d ≠ s.direction.opposite →
        (s.change_direction d).1 = true
        ∧ (s.change_direction d).2.direction = d
        ∧ (s.change_direction d).2.direction_changes =
            s.direction_changes + (if d = s.direction then 0 else 1)
        ∧ (s.change_direction d).2.body = s.body
        ∧ (s.change_direction d).2.grow_flag = s.grow_flag
        ∧ (s.change_direction d).2.total_moves = s.total_moves) := by
  constructor
  · intro h
    simp [Snake.change_direction, h]
  · intro h
    by_cases hs : d = s.direction
    · subst hs
      simp [Snake.change_direction, h]
    · simp [Snake.change_direction, h, hs]

/-- Witness for `change_direction_spec`: turning up from right is accepted and
counted; reversing to the left is refused. -/
theorem change_direction_spec_witness :
    ((Snake.init 0 0).change_direction .up).2.direction_changes = 1
    ∧ (Snake.init 0 0).change_direction .left = (false, Snake.init 0 0) := by
  have h := change_direction_spec (Snake.init 0 0) .up
  have hrej := change_direction_spec (Snake.init 0 0) .left
  refine ⟨?_, hrej.1 (by decide)⟩
  have := (h.2 (by decide)).2.2.1
  simpa using this

/-- C8: `check_wall_collision(w, h)` is true exactly when the head leaves
`[0, w) × [0, h)`; in particular a head at `(-1, 4)` on a 10 by 10 grid
collides. -/
theorem wall_collision_iff (s : Snake) (w h hx hy : Int) (rest : List Pos)
    (hb : s.body = (hx, hy) :: rest) :
    (s.check_wall_collision w h = true ↔ hx < 0 ∨ hx ≥ w ∨ hy < 0 ∨ hy ≥ h)
    ∧ (Snake.mk [((-1 : Int), (4 : Int))] .right false 0 0).check_wall_collision 10 10
        = true := by
  refine ⟨?_, by decide⟩
  cases s with
  | mk body dir flag tm dc =>
    subst hb
    simp [Snake.check_wall_collision, or_assoc]

/-- Witness for `wall_collision_iff`: the scenario head from the spec. -/
theorem wall_collision_iff_witness :
    ((Snake.mk [((-1 : Int), (4 : Int))] .right false 0 0).check_wall_collision 10 10 = true
      ↔ ((-1 : Int) < 0 ∨ (-1 : Int) ≥ 10 ∨ (4 : Int) < 0 ∨ (4 : Int) ≥ 10)) := by
  exact (wall_collision_iff (Snake.mk [(-1, 4)] .right false 0 0) 10 10 (-1) 4 [] rfl).1

/-- State of `Food` (food.py).  `cell_size` is pixel-only and omitted. -/
structure Food where
  grid_width : Int
  grid_height : Int
  position : Pos
  foods_eaten : Nat
deriving DecidableEq, Repr

/-- One candidate draw of `Food.spawn_food`: `random.randint(0, grid_width-1)`
and `random.randint(0, grid_height-1)` are modelled by reducing the `k`-th
element of an arbitrary integer stream modulo the grid dimensions (every
in-range draw sequence arises this way). -/
def drawAt (grid_width grid_height : Int) (rng : Nat → Pos) (k : Nat) : Pos :=
  ((rng k).1 % grid_width, (rng k).2 % grid_height)

/-- The retry loop of `Food.spawn_food`: `fuel` is the number of attempts
remaining (`max_attempts - attempts`), `k` the index of the next draw.  A
draw that is not in `snake_body` is returned; when all attempts draw occupied
positions the fallback `(0, 0)` is returned (food.py lines 41-54). -/
def spawnAux (grid_width grid_height : Int) (rng : Nat → Pos)
    (snake_body : List Pos) : Nat → Nat → Pos
  | 0, _ => (0, 0)
  | n + 1, k =>
    let p := drawAt grid_width grid_height rng k
    if p ∈ snake_body then spawnAux grid_width grid_height rng snake_body n (k + 1)
    else p

/-- `max_attempts = 100` in `Food.spawn_food`. -/
def max_attempts : Nat := 100

/-- `Food.spawn_food(snake_body)`: retry up to `max_attempts` times, storing
the first unoccupied draw, else the `(0, 0)` fallback. -/
def Food.spawn_food (f : Food) (rng : Nat → Pos) (snake_body : List Pos) : Food :=
  { f with position :=
      spawnAux f.grid_width f.grid_height rng snake_body max_attempts 0 }

/-- `Food.__init__(cell_size, grid_width, grid_height)`: position `(0, 0)`,
no foods eaten, then `spawn_food([])` — note the empty occupied list. -/
def Food.init (grid_width grid_height : Int) (rng : Nat → Pos) : Food :=
  Food.spawn_food
    { grid_width := grid_width, grid_height := grid_height,
      position := (0, 0), foods_eaten := 0 } rng []

/-- `Food.check_collision(snake_head)`: on a hit, count the food as eaten and
report `true`; otherwise report `false` with no state change. -/
def Food.check_collision (f : Food) (snake_head : Pos) : Bool × Food :=
  if snake_head = f.position then
    (true, { f with foods_eaten := f.foods_eaten + 1 })
  else
    (false, f)

/-- If some draw among the remaining attempts is unoccupied, the spawn loop
returns an unoccupied position. -/
theorem spawnAux_not_mem (grid_width grid_height : Int) (rng : Nat → Pos)
    (snake_body : List Pos) :
    ∀ fuel k, (∃ j, j < fuel ∧ drawAt grid_width grid_height rng (k + j) ∉ snake_body) →
      spawnAux grid_width grid_height rng snake_body fuel k ∉ snake_body := by
  intro fuel
  induction fuel with
  | zero =>
    intro k hex
    obtain ⟨j, hj, _⟩ := hex
    exact absurd hj (Nat.not_lt_zero j)
  | succ n ih =>
    intro k hex
    by_cases hmem : drawAt grid_width grid_height rng k ∈ snake_body
    · have hex' : ∃ j, j < n ∧ drawAt grid_width grid_height rng (k + 1 + j) ∉ snake_body := by
        obtain ⟨j, hj, hout⟩ := hex
        cases j with
        | zero => exact absurd hmem (by simpa using hout)
        | succ j' =>
          refine ⟨j', Nat.lt_of_succ_lt_succ hj, ?_⟩
          have : k + 1 + j' = k + (j' + 1) := by omega
          rw [this]
          exact hout
      simpa [spawnAux, hmem] using ih (k + 1) hex'
    · simp [spawnAux, hmem]

/-- If every draw among the remaining attempts is occupied, the spawn loop
exhausts its attempts and returns the `(0, 0)` fallback. -/
theorem spawnAux_exhaust (grid_width grid_height : Int) (rng : Nat → Pos)
    (snake_body : List Pos) :
    ∀ fuel k, (∀ j, j < fuel → drawAt grid_width grid_height rng (k + j) ∈ snake_body) →
      spawnAux grid_width grid_height rng snake_body fuel k = (0, 0) := by
  intro fuel
  induction fuel with
  | zero => intro k _; rfl
  | succ n ih =>
    intro k hall
    have hmem : drawAt grid_width grid_height rng k ∈ snake_body := by
      simpa using hall 0 (Nat.succ_pos n)
    have hall' : ∀ j, j < n → drawAt grid_width grid_height rng (k + 1 + j) ∈ snake_body := by
      intro j hj
      have : k + 1 + j = k + (j + 1) := by omega
      rw [this]
      exact hall (j + 1) (Nat.succ_lt_succ hj)
    simpa [spawnAux, hmem] using ih (k + 1) hall'

/-- On a positive grid every value the spawn loop can return is in bounds:
draws are reduced modulo the dimensions and the fallback is `(0, 0)`. -/
theorem spawnAux_in_bounds (grid_width grid_height : Int) (rng : Nat → Pos)
    (snake_body : List Pos) (hw : 0 < grid_width) (hh : 0 < grid_height) :
    ∀ fuel k,
      0 ≤ (spawnAux grid_width grid_height rng snake_body fuel k).1
      ∧ (spawnAux grid_width grid_height rng snake_body fuel k).1 < grid_width
      ∧ 0 ≤ (spawnAux grid_width grid_height rng snake_body fuel k).2
      ∧ (spawnAux grid_width grid_height rng snake_body fuel k).2 < grid_height := by
  intro fuel
  induction fuel with
  | zero =>
    intro k
    exact ⟨le_refl 0, hw, le_refl 0, hh⟩
  | succ n ih =>
    intro k
    by_cases hmem : drawAt grid_width grid_height rng k ∈ snake_body
    · simpa [spawnAux, hmem] using ih (k + 1)
    · have h1 : 0 ≤ (rng k).1 % grid_width :=
        Int.emod_nonneg _ (ne_of_gt hw)
      have h2 : (rng k).1 % grid_width < grid_width :=
        Int.emod_lt_of_pos _ hw
      have h3 : 0 ≤ (rng k).2 % grid_height :=
        Int.emod_nonneg _ (ne_of_gt hh)
      have h4 : (rng k).2 % grid_height < grid_height :=
        Int.emod_lt_of_pos _ hh
      simp only [spawnAux, hmem, if_neg]
      exact ⟨h1, h2, h3, h4⟩

/-- A high-score entry (game_stats.py `_update_high_scores`).  Only `score`
takes part in the ordering; `id` is a ghost insertion index standing in for
the payload fields (`max_length`, `duration_seconds`, `foods_eaten`, `date`,
`efficiency`), none of which affects the sort. -/
structure ScoreEntry where
  score : Int
  id : Nat
deriving DecidableEq, Repr

/-- Insertion step of a stable descending sort by score: the new element goes
before the first strictly smaller score, i.e. after every earlier element
with an equal or larger score. -/
def insertByScore (e : ScoreEntry) : List ScoreEntry → List ScoreEntry
  | [] => [e]
  | b :: bs => if b.score ≤ e.score then e :: b :: bs else b :: insertByScore e bs

/-- Python `list.sort(key=score, reverse=True)` is a stable sort by score
descending; stability plus sortedness determines the output uniquely, and
this insertion sort computes exactly that output. -/
def sortByScoreDesc (l : List ScoreEntry) : List ScoreEntry :=
  l.foldr insertByScore []

/-- `GameStats._update_high_scores`: append the entry of the finished game,
sort by score descending (stable) and keep the first 10. -/
def update_high_scores (high_scores : List ScoreEntry) (e : ScoreEntry) : List ScoreEntry :=
  (sortByScoreDesc (high_scores ++ [e])).take 10

/-- Fold a sequence of finalized session scores into the high-score list,
tagging each session with its insertion index. -/
def foldSessions (scores : List Int) : List ScoreEntry :=
  scores.enum.foldl (fun hs p => update_high_scores hs ⟨p.2, p.1⟩) []

/-- The intended order of the high-score list: strictly larger score first,
ties resolved by earlier insertion. -/
def rankedBefore (a b : ScoreEntry) : Prop :=
  b.score < a.score ∨ (a.score = b.score ∧ a.id < b.id)

/-- Membership through `insertByScore`. -/
theorem mem_insertByScore (e x : ScoreEntry) :
    ∀ l, x ∈ insertByScore e l ↔ x = e ∨ x ∈ l := by
  intro l
  induction l with
  | nil => simp [insertByScore]
  | cons b bs ih =>
    by_cases hle : b.score ≤ e.score
    · simp [insertByScore, hle]
    · simp [insertByScore, hle, ih]
      tauto

/-- Membership through `sortByScoreDesc`. -/
theorem mem_sortByScoreDesc (x : ScoreEntry) :
    ∀ l, x ∈ sortByScoreDesc l ↔ x ∈ l := by
  intro l
  induction l with
  | nil => simp [sortByScoreDesc]
  | cons a as ih =>
    simp only [sortByScoreDesc, List.foldr_cons] at *
    rw [mem_insertByScore, ih]
    simp

/-- Inserting a later entry into a ranked list keeps it ranked, provided the
new entry was inserted after every equal score already present. -/
theorem insertByScore_pairwise (e : ScoreEntry) :
    ∀ l, l.Pairwise rankedBefore →
      (∀ b ∈ l, e.score = b.score → e.id < b.id) →
      (insertByScore e l).Pairwise rankedBefore := by
  intro l
  induction l with
  | nil =>
    intro _ _
    simp [insertByScore]
  | cons b bs ih =>
    intro hp hid
    rw [List.pairwise_cons] at hp
    obtain ⟨hb, hbs⟩ := hp
    by_cases hle : b.score ≤ e.score
    · rw [insertByScore, if_pos hle, List.pairwise_cons]
      refine ⟨?_, by rw [List.pairwise_cons]; exact ⟨hb, hbs⟩⟩
      intro x hx
      rcases List.mem_cons.mp hx with rfl | hx
      · rcases lt_or_eq_of_le hle with hlt | heq
        · exact Or.inl hlt
        · exact Or.inr ⟨heq.symm, hid x (List.mem_cons_self _ _) heq.symm⟩
      · have hxb := hb x hx
        have hxle : x.score ≤ b.score := by
          rcases hxb with h | ⟨h, _⟩
          · exact le_of_lt h
          · exact le_of_eq h.symm
        rcases lt_or_eq_of_le (le_trans hxle hle) with hlt | heq
        · exact Or.inl hlt
        · exact Or.inr ⟨heq.symm, hid x (List.mem_cons_of_mem b hx) heq.symm⟩
    · rw [insertByScore, if_neg hle, List.pairwise_cons]
      constructor
      · intro x hx
        rw [mem_insertByScore] at hx
        rcases hx with rfl | hx
        · exact Or.inl (lt_of_not_le hle)
        · exact hb x hx
      · exact ih hbs (fun x hx hsc => hid x (by simp [hx]) hsc)

/-- Sorting a list in which equal scores already carry increasing insertion
indices produces a ranked list. -/
theorem sortByScoreDesc_pairwise :
    ∀ l : List ScoreEntry,
      l.Pairwise (fun a b => a.score = b.score → a.id < b.id) →
      (sortByScoreDesc l).Pairwise rankedBefore := by
  intro l
  induction l with
  | nil =>
    intro _
    simp [sortByScoreDesc]
  | cons a as ih =>
    intro hp
    rw [List.pairwise_cons] at hp
    obtain ⟨ha, has⟩ := hp
    rw [sortByScoreDesc, List.foldr_cons]
    refine insertByScore_pairwise a _ (ih has) ?_
    intro b hb hsc
    exact ha b ((mem_sortByScoreDesc b as).mp hb) hsc

/-- One `update_high_scores` step preserves rankedness, the cap, and the
bound on insertion indices, when the appended entry is fresher than all
present entries. -/
theorem update_high_scores_inv (hs : List ScoreEntry) (e : ScoreEntry)
    (hp : hs.Pairwise rankedBefore) (hid : ∀ x ∈ hs, x.id < e.id) :
    (update_high_scores hs e).Pairwise rankedBefore
    ∧ (update_high_scores hs e).length ≤ 10
    ∧ ∀ x ∈ update_high_scores hs e, x.id < e.id + 1 := by
  have hmemsub : ∀ x ∈ update_high_scores hs e, x ∈ hs ++ [e] := by
    intro x hx
    have hx1 : x ∈ sortByScoreDesc (hs ++ [e]) :=
      (List.take_sublist 10 _).subset hx
    exact (mem_sortByScoreDesc x (hs ++ [e])).mp hx1
  refine ⟨?_, ?_, ?_⟩
  · refine List.Pairwise.sublist (List.take_sublist 10 _) ?_
    refine sortByScoreDesc_pairwise (hs ++ [e]) ?_
    rw [List.pairwise_append]
    refine ⟨?_, by simp, ?_⟩
    · refine hp.imp ?_
      intro a b hab hsc
      rcases hab with h | ⟨h, hlt⟩
      · exact absurd hsc (by omega)
      · exact hlt
    · intro a haa b hbb
      simp at hbb
      subst hbb
      intro _
      exact hid a haa
  · simp only [update_high_scores, List.length_take]
    omega
  · intro x hx
    rcases (by simpa using hmemsub x hx : x ∈ hs ∨ x = e) with hmem | rfl
    · exact Nat.lt_succ_of_lt (hid x hmem)
    · exact Nat.lt_succ_self _

/-- Folding sessions indexed from `n` into a ranked accumulator whose indices
are below `n` keeps the list ranked, capped at 10, with indices below
`n + scores.length`. -/
theorem foldSessions_inv :
    ∀ (scores : List Int) (n : Nat) (acc : List ScoreEntry),
      acc.Pairwise rankedBefore →
      (∀ x ∈ acc, x.id < n) →
      acc.length ≤ 10 →
      (((List.enumFrom n scores).foldl
          (fun hs p => update_high_scores hs ⟨p.2, p.1⟩) acc).Pairwise rankedBefore
        ∧ ((List.enumFrom n scores).foldl
            (fun hs p => update_high_scores hs ⟨p.2, p.1⟩) acc).length ≤ 10
        ∧ ∀ x ∈ (List.enumFrom n scores).foldl
            (fun hs p => update_high_scores hs ⟨p.2, p.1⟩) acc,
            x.id < n + scores.length) := by
  intro scores
  induction scores with
  | nil =>
    intro n acc hp hid hlen
    exact ⟨hp, hlen, fun x hx => by simpa using hid x hx⟩
  | cons sc rest ih =>
    intro n acc hp hid hlen
    have hstep := update_high_scores_inv acc ⟨sc, n⟩ hp hid
    have hrec := ih (n + 1) (update_high_scores acc ⟨sc, n⟩)
      hstep.1 hstep.2.2 hstep.2.1
    simp only [List.enumFrom, List.foldl_cons]
    refine ⟨hrec.1, hrec.2.1, ?_⟩
    intro x hx
    have := hrec.2.2 x hx
    simpa [Nat.add_assoc, Nat.add_comm 1 rest.length] using this

/-- C7: folding any sequence of finalized session scores into the high-score
list yields a list ordered by score descending with ties in insertion order,
holding at most 10 entries; the scenario `[50, 120, 80]` folds to the score
sequence `[120, 80, 50]`. -/
theorem high_scores_fold_spec (scores : List Int) :
    (foldSessions scores).Pairwise rankedBefore
    ∧ (foldSessions scores).length ≤ 10
    ∧ (foldSessions [50, 120, 80]).map ScoreEntry.score = [120, 80, 50] := by
  have h := foldSessions_inv scores 0 [] (by simp) (by simp) (by simp)
  have henum : scores.enum = List.enumFrom 0 scores := rfl
  refine ⟨?_, ?_, by decide⟩
  · rw [foldSessions, henum]
    exact h.1
  · rw [foldSessions, henum]
    exact h.2.1

/-- Operations a client can invoke on a `Snake` (snake.py public mutators). -/
inductive Op where
  | move
  | grow
  | turn (d : Direction)
deriving DecidableEq, Repr

/-- Apply one operation; `turn` keeps the state returned by
`change_direction`, whether the call was accepted or refused. -/
def applyOp (s : Snake) : Op → Snake
  | .move => s.move
  | .grow => s.grow
  | .turn d => (s.change_direction d).2

/-- Run a sequence of operations from a starting snake. -/
def runOps (s : Snake) (ops : List Op) : Snake :=
  ops.foldl applyOp s

/-- Invariant of reachable snakes: the body is nonempty and its first two
segments, when there are two, are distinct. -/
def bodyOk (s : Snake) : Prop :=
  s.body ≠ [] ∧ ∀ a b t, s.body = a :: b :: t → a ≠ b

/-- A fresh head differs from the previous head: no direction is a zero move. -/
theorem new_head_ne (hx hy : Int) (d : Direction) :
    ((hx + d.value.1, hy + d.value.2) : Pos) ≠ (hx, hy) := by
  intro hcontra
  apply Direction.value_ne_zero d
  have h1 : hx + d.value.1 = hx := congrArg Prod.fst hcontra
  have h2 : hy + d.value.2 = hy := congrArg Prod.snd hcontra
  have e1 : d.value.1 = 0 := by omega
  have e2 : d.value.2 = 0 := by omega
  cases hv : d.value with
  | mk vx vy =>
    rw [hv] at e1 e2
    simp at e1 e2
    simp [e1, e2]

/-- `move` preserves the body invariant. -/
theorem bodyOk_move (s : Snake) (h : bodyOk s) : bodyOk s.move := by
  obtain ⟨body, dir, flag, tm, dc⟩ := s
  match body, h with
  | [], ⟨hne, _⟩ => exact absurd rfl hne
  | (hx, hy) :: rest, _ =>
    have hneq := new_head_ne hx hy dir
    cases flag with
    | true =>
      refine ⟨by simp [Snake.move], ?_⟩
      intro a b t hab
      simp only [Snake.move] at hab
      obtain ⟨ha, hb, _⟩ := by simpa using hab
      rw [← ha, ← hb]
      exact hneq
    | false =>
      cases rest with
      | nil =>
        refine ⟨by simp [Snake.move], ?_⟩
        intro a b t hab
        simp [Snake.move] at hab
      | cons r rs =>
        refine ⟨by simp [Snake.move, List.dropLast_cons₂], ?_⟩
        intro a b t hab
        simp only [Snake.move, List.dropLast_cons₂] at hab
        obtain ⟨ha, hb, _⟩ := by simpa using hab
        rw [← ha, ← hb]
        exact hneq

/-- `change_direction` never touches the body. -/
theorem change_direction_body (s : Snake) (d : Direction) :
    (s.change_direction d).2.body = s.body := by
  simp only [Snake.change_direction]
  split
  · rfl
  · split <;> rfl

/-- Every operation preserves the body invariant. -/
theorem bodyOk_applyOp (s : Snake) (op : Op) (h : bodyOk s) : bodyOk (applyOp s op) := by
  cases op with
  | move => exact bodyOk_move s h
  | grow => exact h
  | turn d =>
    obtain ⟨hne, htwo⟩ := h
    refine ⟨?_, ?_⟩
    · rw [applyOp, change_direction_body]
      exact hne
    · intro a b t hab
      rw [applyOp, change_direction_body] at hab
      exact htwo a b t hab

/-- The body invariant holds along any run of operations. -/
theorem bodyOk_runOps (s : Snake) (ops : List Op) (h : bodyOk s) :
    bodyOk (runOps s ops) := by
  induction ops generalizing s with
  | nil => exact h
  | cons op rest ih => exact ih (applyOp s op) (bodyOk_applyOp s op h)

/-- C6: along every sequence of operations from a freshly constructed snake,
a snake whose body has at most two segments never reports a self-collision. -/
theorem short_snake_no_self_collision (x y : Int) (ops : List Op)
    (hlen : (runOps (Snake.init x y) ops).get_length ≤ 2) :
    (runOps (Snake.init x y) ops).check_self_collision = false := by
  have hok : bodyOk (runOps (Snake.init x y) ops) := by
    refine bodyOk_runOps _ ops ⟨by simp [Snake.init], ?_⟩
    intro a b t hab
    simp [Snake.init] at hab
  obtain ⟨hne, htwo⟩ := hok
  cases hb : (runOps (Snake.init x y) ops).body with
  | nil => exact absurd hb hne
  | cons hd tl =>
    cases tl with
    | nil => simp [Snake.check_self_collision, hb]
    | cons b bs =>
      cases bs with
      | nil =>
        have hab : hd ≠ b := htwo hd b [] hb
        simp [Snake.check_self_collision, hb, hab]
      | cons c cs =>
        rw [Snake.get_length, hb] at hlen
        simp at hlen

/-- Witness for `short_snake_no_self_collision`: a grow, a turn and two moves
leave a length-2 snake with no self-collision. -/
theorem short_snake_no_self_collision_witness :
    (runOps (Snake.init 5 5) [.grow, .move, .turn .down, .move]).check_self_collision
      = false := by
  exact short_snake_no_self_collision 5 5 [.grow, .move, .turn .down, .move] (by decide)

/-- C5: `spawn_food(occupied)` places the food at an unoccupied position
whenever some of its 100 draws is unoccupied, and falls back to `(0, 0)` —
occupied or not — exactly when all 100 draws hit occupied cells; it is a
total function (never raises). -/
theorem spawn_food_spec (f : Food) (rng : Nat → Pos) (occupied : List Pos) :
    ((∃ k, k < 100 ∧ drawAt f.grid_width f.grid_height rng k ∉ occupied) →
        (f.spawn_food rng occupied).position ∉ occupied)
    ∧ ((∀ k, k < 100 → drawAt f.grid_width f.grid_height rng k ∈ occupied) →
        (f.spawn_food rng occupied).position = (0, 0)) := by
  constructor
  · intro hex
    have := spawnAux_not_mem f.grid_width f.grid_height rng occupied max_attempts 0
    simp only [Food.spawn_food]
    apply this
    obtain ⟨k, hk, hout⟩ := hex
    exact ⟨k, hk, by simpa using hout⟩
  · intro hall
    have := spawnAux_exhaust f.grid_width f.grid_height rng occupied max_attempts 0
    simp only [Food.spawn_food]
    apply this
    intro j hj
    simpa using hall j hj

/-- Witness for `spawn_food_spec`: on a 2 by 2 grid with only `(1, 1)`
occupied, a constant-zero draw stream succeeds immediately. -/
theorem spawn_food_spec_witness :
    ((Food.mk 2 2 (0, 0) 0).spawn_food (fun _ => (0, 0)) [(1, 1)]).position ∉
      [((1 : Int), (1 : Int))] := by
  exact (spawn_food_spec (Food.mk 2 2 (0, 0) 0) (fun _ => (0, 0)) [(1, 1)]).1
    ⟨0, by decide, by decide⟩

/-- C10: every position `spawn_food` can produce on a grid with positive
dimensions — any occupied list, any draw stream, including the fallback —
lies within `[0, grid_width) × [0, grid_height)`. -/
theorem spawn_food_in_bounds (f : Food) (rng : Nat → Pos) (occupied : List Pos)
    (hw : 0 < f.grid_width) (hh : 0 < f.grid_height) :
    0 ≤ (f.spawn_food rng occupied).position.1
    ∧ (f.spawn_food rng occupied).position.1 < f.grid_width
    ∧ 0 ≤ (f.spawn_food rng occupied).position.2
    ∧ (f.spawn_food rng occupied).position.2 < f.grid_height := by
  simpa [Food.spawn_food] using
    spawnAux_in_bounds f.grid_width f.grid_height rng occupied hw hh max_attempts 0

/-- Witness for `spawn_food_in_bounds` on a 3 by 4 grid. -/
theorem spawn_food_in_bounds_witness :
    0 ≤ ((Food.mk 3 4 (0, 0) 0).spawn_food (fun _ => (7, 9)) []).position.1
    ∧ ((Food.mk 3 4 (0, 0) 0).spawn_food (fun _ => (7, 9)) []).position.1 < 3
    ∧ 0 ≤ ((Food.mk 3 4 (0, 0) 0).spawn_food (fun _ => (7, 9)) []).position.2
    ∧ ((Food.mk 3 4 (0, 0) 0).spawn_food (fun _ => (7, 9)) []).position.2 < 4 := by
  exact spawn_food_in_bounds (Food.mk 3 4 (0, 0) 0) (fun _ => (7, 9)) []
    (by decide) (by decide)

/-- A session record (game_stats.py `current_session`).  The wall-clock
fields `start_time`, `end_time` and `duration_seconds` are not modelled. -/
structure SessionStats where
  score : Int
  max_length : Nat
  total_moves : Nat
  direction_changes : Nat
  foods_eaten : Nat
deriving DecidableEq, Repr

/-- State of `GameStats` (game_stats.py).  File persistence is not modelled:
a fresh run starts with empty history and high scores.  `started` mirrors
`current_session['start_time'] is not None`. -/
structure GameStats where
  current_session : SessionStats
  started : Bool
  game_history : List SessionStats
  high_scores : List ScoreEntry
deriving DecidableEq, Repr

/-- `GameStats.__init__` with no saved data: zeroed session, nothing
recorded. -/
def GameStats.init : GameStats :=
  { current_session := ⟨0, 0, 0, 0, 0⟩, started := false,
    game_history := [], high_scores := [] }

/-- `GameStats.start_new_game`: reset the session; a snake starts at
length 1. -/
def GameStats.start_new_game (st : GameStats) : GameStats :=
  { st with current_session := ⟨0, 1, 0, 0, 0⟩, started := true }

/-- `GameStats.update_game_stats(snake_data, food_data, score)`: refresh the
session from the snake analytics, food stats and current score. -/
def GameStats.update_game_stats (st : GameStats) (s : Snake) (f : Food)
    (score : Int) : GameStats :=
  { st with current_session :=
      { score := score
        max_length := max st.current_session.max_length s.get_length
        total_moves := s.total_moves
        direction_changes := s.direction_changes
        foods_eaten := f.foods_eaten } }

/-- `GameStats.end_game`: when a session is running, append it to the
history and fold it into the high scores; the ghost insertion index is the
history length.  File writes are not modelled. -/
def GameStats.end_game (st : GameStats) : GameStats :=
  if st.started then
    { st with
      game_history := st.game_history ++ [st.current_session]
      high_scores := update_high_scores st.high_scores
        ⟨st.current_session.score, st.game_history.length⟩ }
  else st

/-- State of `SnakeGame` (game.py).  Rendering, fonts and the event queue
are omitted; `grid_width` and `grid_height` are the `__init__` values
`width // cell_size` and `height // cell_size`. -/
structure SnakeGame where
  grid_width : Int
  grid_height : Int
  initial_speed : Int
  speed_increase : Int
  snake : Snake
  food : Food
  game_over : Bool
  paused : Bool
  score : Int
  game_speed : Int
  stats : GameStats
deriving DecidableEq, Repr

/-- `SnakeGame.__init__` and `_init_game_objects`: snake in the grid centre,
food constructed (spawning with an empty occupied list), fresh stats with a
started session, speed at `initial_speed`. -/
def SnakeGame.init (width height cell_size initial_speed speed_increase : Int)
    (rng : Nat → Pos) : SnakeGame :=
  let grid_width := width / cell_size
  let grid_height := height / cell_size
  { grid_width := grid_width
    grid_height := grid_height
    initial_speed := initial_speed
    speed_increase := speed_increase
    snake := Snake.init (grid_width / 2) (grid_height / 2)
    food := Food.init grid_width grid_height rng
    game_over := false
    paused := false
    score := 0
    game_speed := initial_speed
    stats := GameStats.init.start_new_game }

/-- `SnakeGame.end_game`: raise the game-over flag and finalize the stats. -/
def SnakeGame.end_game (g : SnakeGame) : SnakeGame :=
  { g with game_over := true, stats := g.stats.end_game }

/-- `SnakeGame.update_game`: no-op while paused or over; otherwise move the
snake, end on wall or self collision, handle an eaten food (grow, +10 score,
speed-up while above 50, respawn avoiding the snake body), and refresh the
session stats.  `rng` drives the at-most-one respawn of this tick. -/
def SnakeGame.update_game (g : SnakeGame) (rng : Nat → Pos) : SnakeGame :=
  if g.paused || g.game_over then g
  else
    let s := g.snake.move
    if s.check_wall_collision g.grid_width g.grid_height then
      SnakeGame.end_game { g with snake := s }
    else if s.check_self_collision then
      SnakeGame.end_game { g with snake := s }
    else
      let hit := g.food.check_collision s.get_head_position
      let g1 :=
        if hit.1 then
          { g with
            snake := s.grow
            score := g.score + 10
            game_speed :=
              if g.game_speed > 50 then g.game_speed - g.speed_increase
              else g.game_speed
            food := hit.2.spawn_food rng s.grow.body }
        else
          { g with snake := s, food := hit.2 }
      { g1 with stats := g1.stats.update_game_stats g1.snake g1.food g1.score }

/-- The SPACE branch of `SnakeGame.handle_input`: toggle pause unless the
game is over. -/
def SnakeGame.handle_space (g : SnakeGame) : SnakeGame :=
  if g.game_over then g else { g with paused := !g.paused }

/-- A run of game ticks, one draw stream per tick. -/
def runTicks (g : SnakeGame) (rngs : List (Nat → Pos)) : SnakeGame :=
  rngs.foldl SnakeGame.update_game g

/-- C9: the SPACE handler mutates nothing besides the paused flag and is a
no-op while game over; a tick while paused changes nothing at all. -/
theorem pause_toggle_frame (g : SnakeGame) (rng : Nat → Pos) :
    g.handle_space.snake = g.snake
    ∧ g.handle_space.food = g.food
    ∧ g.handle_space.score = g.score
    ∧ g.handle_space.game_speed = g.game_speed
    ∧ g.handle_space.stats = g.stats
    ∧ (g.game_over = false → g.handle_space = { g with paused := !g.paused })
    ∧ (g.game_over = true → g.handle_space = g)
    ∧ (g.paused = true → g.update_game rng = g) := by
  refine ⟨?_, ?_, ?_, ?_, ?_, ?_, ?_, ?_⟩
  · rw [SnakeGame.handle_space]; split <;> rfl
  · rw [SnakeGame.handle_space]; split <;> rfl
  · rw [SnakeGame.handle_space]; split <;> rfl
  · rw [SnakeGame.handle_space]; split <;> rfl
  · rw [SnakeGame.handle_space]; split <;> rfl
  · intro h; simp [SnakeGame.handle_space, h]
  · intro h; simp [SnakeGame.handle_space, h]
  · intro h; simp [SnakeGame.update_game, h]

/-- Witness for `pause_toggle_frame`: a paused, game-over state is fixed by
both the toggle and the tick. -/
theorem pause_toggle_frame_witness :
    { SnakeGame.init 200 200 20 150 5 (fun _ => (0, 0)) with
        paused := true, game_over := true }.handle_space =
      { SnakeGame.init 200 200 20 150 5 (fun _ => (0, 0)) with
        paused := true, game_over := true }
    ∧ { SnakeGame.init 200 200 20 150 5 (fun _ => (0, 0)) with
        paused := true, game_over := true }.update_game (fun _ => (0, 0)) =
      { SnakeGame.init 200 200 20 150 5 (fun _ => (0, 0)) with
        paused := true, game_over := true } := by
  constructor
  · exact (pause_toggle_frame _ (fun _ => (0, 0))).2.2.2.2.2.2.1 rfl
  · exact (pause_toggle_frame _ (fun _ => (0, 0))).2.2.2.2.2.2.2 rfl

/-- In one tick the speed either stays put or, only while strictly above 50,
drops by exactly the configured step; the configuration itself never
changes. -/
theorem update_game_speed_step (g : SnakeGame) (rng : Nat → Pos) :
    (g.update_game rng).speed_increase = g.speed_increase
    ∧ ((g.update_game rng).game_speed = g.game_speed
        ∨ (50 < g.game_speed
            ∧ (g.update_game rng).game_speed = g.game_speed - g.speed_increase)) := by
  by_cases hpg : (g.paused || g.game_over) = true
  · simp [SnakeGame.update_game, hpg]
  · by_cases hwall : g.snake.move.check_wall_collision g.grid_width g.grid_height = true
    · simp [SnakeGame.update_game, SnakeGame.end_game, hpg, hwall]
    · by_cases hself : g.snake.move.check_self_collision = true
      · simp [SnakeGame.update_game, SnakeGame.end_game, hpg, hwall, hself]
      · by_cases hhit : (g.food.check_collision g.snake.move.get_head_position).1 = true
        · by_cases h50 : 50 < g.game_speed
          · refine ⟨?_, Or.inr ⟨h50, ?_⟩⟩ <;>
              simp [SnakeGame.update_game, hpg, hwall, hself, hhit, h50]
          · refine ⟨?_, Or.inl ?_⟩ <;>
              simp [SnakeGame.update_game, hpg, hwall, hself, hhit, h50]
        · simp [SnakeGame.update_game, hpg, hwall, hself, hhit]

/-- Along any run with a positive step, the speed never drops below
`min start (51 - step)`. -/
theorem runTicks_speed_bound (rngs : List (Nat → Pos)) :
    ∀ g : SnakeGame, 0 < g.speed_increase →
      min g.game_speed (51 - g.speed_increase) ≤ (runTicks g rngs).game_speed := by
  induction rngs with
  | nil =>
    intro g _
    exact min_le_left _ _
  | cons rng rest ih =>
    intro g hpos
    have hstep := update_game_speed_step g rng
    have hrec := ih (g.update_game rng) (by rw [hstep.1]; exact hpos)
    rw [hstep.1] at hrec
    have : min g.game_speed (51 - g.speed_increase) ≤
        min (g.update_game rng).game_speed (51 - g.speed_increase) := by
      rcases hstep.2 with heq | ⟨h50, heq⟩ <;> omega
    calc min g.game_speed (51 - g.speed_increase)
        ≤ min (g.update_game rng).game_speed (51 - g.speed_increase) := this
      _ ≤ (runTicks (g.update_game rng) rest).game_speed := hrec
      _ = (runTicks g (rng :: rest)).game_speed := by rw [runTicks, runTicks, List.foldl_cons]

/-- With the default configuration step of 5 and a speed at least 50 that is
50 plus a multiple of 5, the speed never drops below 50. -/
theorem runTicks_default_floor (rngs : List (Nat → Pos)) :
    ∀ g : SnakeGame, g.speed_increase = 5 → 50 ≤ g.game_speed →
      (g.game_speed - 50) % 5 = 0 →
      50 ≤ (runTicks g rngs).game_speed := by
  induction rngs with
  | nil =>
    intro g _ h50 _
    exact h50
  | cons rng rest ih =>
    intro g hinc h50 hmod
    have hstep := update_game_speed_step g rng
    have hfold : runTicks g (rng :: rest) = runTicks (g.update_game rng) rest := by
      rw [runTicks, runTicks, List.foldl_cons]
    rw [hfold]
    refine ih (g.update_game rng) (by rw [hstep.1, hinc]) ?_ ?_
    · rcases hstep.2 with heq | ⟨hgt, heq⟩ <;> rw [heq] <;> omega
    · rcases hstep.2 with heq | ⟨hgt, heq⟩ <;> rw [heq] <;> omega

/-- Counterexample to C4: from the reachable initial state of a game
configured with `initial_speed = 51` and `speed_increase = 5` (grid 10 by 10,
snake at the centre `(5, 5)`, food spawned at `(6, 5)`), the very first tick
eats the food and drops `game_speed` to 46, strictly below the floor 50. -/
theorem game_speed_floor_crossed :
    ((SnakeGame.init 200 200 20 51 5 (fun _ => (6, 5))).update_game
        (fun _ => (0, 0))).game_speed = 46
    ∧ (46 : Int) < 50 := by
  constructor
  · decide
  · decide

/-- C4 (amended): a food consumption decreases `game_speed` only while the
speed is strictly above 50, so along any run it never drops below
`min start (51 - step)`; the floor of 50 can be crossed by up to `step - 1`,
but with the default configuration (step 5, speed 50 plus a multiple of 5,
e.g. the default initial 150) it is never crossed. -/
theorem game_speed_lower_bound (g : SnakeGame) (rngs : List (Nat → Pos))
    (hpos : 0 < g.speed_increase) :
    min g.game_speed (51 - g.speed_increase) ≤ (runTicks g rngs).game_speed
    ∧ (g.speed_increase = 5 → 50 ≤ g.game_speed → (g.game_speed - 50) % 5 = 0 →
        50 ≤ (runTicks g rngs).game_speed) := by
  exact ⟨runTicks_speed_bound rngs g hpos,
    fun h1 h2 h3 => runTicks_default_floor rngs g h1 h2 h3⟩

/-- Witness for `game_speed_lower_bound`: a default-configured game keeps its
speed at or above 50 across a tick. -/
theorem game_speed_lower_bound_witness :
    50 ≤ (runTicks (SnakeGame.init 200 200 20 150 5 (fun _ => (0, 0)))
        [fun _ => (1, 1)]).game_speed := by
  exact (game_speed_lower_bound (SnakeGame.init 200 200 20 150 5 (fun _ => (0, 0)))
    [fun _ => (1, 1)] (by decide)).2 (by decide) (by decide) (by decide)

/-- Counterexample to C1: in the reachable initial state of a game on a
10 by 10 grid whose construction-time draw lands on the grid centre, the food
spawns exactly on the snake: `Food.__init__` passes an empty occupied list to
`spawn_food`, so the snake body is not excluded. -/
theorem food_initial_spawn_on_snake :
    (SnakeGame.init 200 200 20 150 5 (fun _ => (5, 5))).food.position ∈
      (SnakeGame.init 200 200 20 150 5 (fun _ => (5, 5))).snake.body := by
  decide

/-- C1 (amended): the no-overlap invariant is enforced only for respawns: on
a tick that consumes the food, if some of the 100 draws misses the moved
snake's body then the respawned food is not on the snake's body.  At `Food`
construction the occupied list passed is empty, and the exhaustion fallback
`(0, 0)` may itself be occupied, so the unconditional invariant fails (see
`food_initial_spawn_on_snake`). -/
theorem food_respawn_avoids_snake_body (g : SnakeGame) (rng : Nat → Pos)
    (hpause : g.paused = false) (hover : g.game_over = false)
    (hwall : g.snake.move.check_wall_collision g.grid_width g.grid_height = false)
    (hself : g.snake.move.check_self_collision = false)
    (heat : g.snake.move.get_head_position = g.food.position)
    (hdraw : ∃ k, k < 100 ∧
        drawAt g.food.grid_width g.food.grid_height rng k ∉ g.snake.move.body) :
    (g.update_game rng).food.position ∉ (g.update_game rng).snake.body := by
  simp only [SnakeGame.update_game, hpause, hover, hwall, hself,
    Food.check_collision, heat, if_pos, Bool.or_self, Bool.false_eq_true,
    if_false, if_true, Food.spawn_food, Snake.grow]
  refine spawnAux_not_mem g.food.grid_width g.food.grid_height rng _ max_attempts 0 ?_
  obtain ⟨k, hk, hout⟩ := hdraw
  refine ⟨k, ?_, ?_⟩
  · simpa [max_attempts] using hk
  · simpa using hout

/-- Witness for `food_respawn_avoids_snake_body`: a first tick that eats the
food at `(6, 5)` respawns it off the snake. -/
theorem food_respawn_avoids_snake_body_witness :
    ((SnakeGame.init 200 200 20 150 5 (fun _ => (6, 5))).update_game
        (fun _ => (0, 0))).food.position ∉
      ((SnakeGame.init 200 200 20 150 5 (fun _ => (6, 5))).update_game
        (fun _ => (0, 0))).snake.body := by
  exact food_respawn_avoids_snake_body
    (SnakeGame.init 200 200 20 150 5 (fun _ => (6, 5))) (fun _ => (0, 0))
    rfl rfl (by decide) (by decide) (by decide) ⟨0, by decide, by decide⟩
